import Mathlib

/-!
Shallow embedding of the service layer of the Backend-Fundamentals repository:
`EventService` (src/services/event_service.py) and `RSVPService`
(src/services/rsvp_service.py), operating on a MongoDB-like document store.

The store is modelled as two lists of records (collections `events` and
`rsvps`) plus a counter supplying freshly generated ObjectIds.  MongoDB
operations become list operations: `insert_one` appends, `find_one` is
`List.find?`, `find(query).to_list(n)` is `filter` then `take n`,
`delete_one` erases the first match, `delete_many` filters, `update_one`
with `$set` patches the first match.  The case-insensitive `$regex` queries
built by the services (always from a literal filter string, anchored
`^x$` for exact match or unanchored `x` for substring) are modelled as
case-insensitive string equality and substring containment.  Errors raised
as `HTTPException(status_code, detail)` become `Except` errors carrying the
same status code and detail string.
-/

/-- ASCII lower-casing of a string, character by character: model of Python's
`str.lower` / MongoDB's case-insensitive collation used by `$options: "i"`,
and of the case normalisation `bson.ObjectId` applies to its hex input. -/
def lowerStr (s : String) : String := String.mk (s.data.map Char.toLower)

/-- A character is a hexadecimal digit (`0-9`, `a-f`, `A-F`). -/
def isHexChar (c : Char) : Bool :=
  (48 ≤ c.toNat && c.toNat ≤ 57) ||
  (97 ≤ c.toNat && c.toNat ≤ 102) ||
  (65 ≤ c.toNat && c.toNat ≤ 70)

namespace ObjectId

/-- `bson.ObjectId.is_valid`: a string is a well-formed ObjectId iff it is
exactly 24 hexadecimal characters. -/
def is_valid (s : String) : Bool :=
  s.length == 24 && s.data.all isHexChar

/-- `bson.ObjectId(s)`: the canonical (lower-case) form of a valid ObjectId
string; querying by `_id` compares this canonical form. -/
def make (s : String) : String := lowerStr s

end ObjectId

/-- Hex digit character for a nibble (lower-case, as `ObjectId` renders). -/
def hexChar (n : Nat) : Char :=
  if n < 10 then Char.ofNat (48 + n) else Char.ofNat (97 + (n - 10))

/-- Big-endian hex rendering of `n` padded to `k` characters. -/
def genOidAux : Nat → Nat → List Char
  | 0, _ => []
  | k + 1, n => genOidAux k (n / 16) ++ [hexChar (n % 16)]

/-- The ObjectId generated by the store for the `n`-th insert: `n` rendered
as 24 lower-case hex characters.  Models MongoDB's server-side `_id`
generation (fresh, valid, canonical). -/
def genOid (n : Nat) : String := String.mk (genOidAux 24 n)

/-- A persisted Event document (collection `events`): the four input fields
of `models.EventCreate` plus the store-assigned `_id`. -/
structure Event where
  _id : String
  title : String
  description : String
  date : Int
  category : String
deriving DecidableEq, Repr

/-- A persisted RSVP document (collection `rsvps`): the three input fields
of `models.RSVPCreate` plus the store-assigned `_id` and the server-side
`created_at` stamp. -/
structure RSVP where
  _id : String
  user_name : String
  email : String
  event_id : String
  created_at : Int
deriving DecidableEq, Repr

/-- `fastapi.HTTPException`: the error value every service raises. -/
structure HTTPException where
  status_code : Nat
  detail : String
deriving DecidableEq, Repr

/-- The document store: the two collections plus the id-generation counter. -/
structure DB where
  events : List Event
  rsvps : List RSVP
  nextId : Nat
deriving DecidableEq, Repr

/-- `models.EventCreate`: the validated input of `create_event`. -/
structure EventCreate where
  title : String
  description : String
  date : Int
  category : String
deriving DecidableEq, Repr

/-- `models.EventUpdate`: per-field optional patch; `none` models a field
not provided (pydantic's `exclude_unset` drops it). -/
structure EventUpdate where
  title : Option String
  description : Option String
  date : Option Int
  category : Option String
deriving DecidableEq, Repr

/-- `models.RSVPCreate`: the validated input of `create_rsvp`. -/
structure RSVPCreate where
  user_name : String
  email : String
  event_id : String
deriving DecidableEq, Repr

/-- Python truthiness of an optional-string parameter: both `None` and the
empty string are falsy (`if category:` in the source). -/
def pyTruthy (o : Option String) : Bool := o.getD "" != ""

/-- The MongoDB query `{"$regex": f"^{pat}$", "$options": "i"}` for a
literal filter string `pat`: case-insensitive exact match. -/
def mongoRegexExactCI (pat s : String) : Bool :=
  lowerStr s == lowerStr pat

/-- `needle` occurs as a contiguous sublist of `hay`. -/
def listContainsSub (needle : List Char) : List Char → Bool
  | [] => needle.isEmpty
  | c :: rest => needle.isPrefixOf (c :: rest) || listContainsSub needle rest

/-- The MongoDB query `{"$regex": pat, "$options": "i"}` for a literal
filter string `pat`: case-insensitive substring containment. -/
def mongoRegexContainsCI (pat s : String) : Bool :=
  listContainsSub (lowerStr pat).data (lowerStr s).data

/-- `update_one` with `$set`: patch the first document matching `p`. -/
def updateFirst (p : α → Bool) (f : α → α) : List α → List α
  | [] => []
  | x :: xs => if p x then f x :: xs else x :: updateFirst p f xs

/-- The merge-patch `{"$set": update_data}` applied to one event: each
provided field overwrites, each absent field is kept. -/
def applySet (u : EventUpdate) (e : Event) : Event :=
  { e with
    title := u.title.getD e.title
    description := u.description.getD e.description
    date := u.date.getD e.date
    category := u.category.getD e.category }

/-- `event_update.model_dump(exclude_unset=True)` is empty iff no field of
the patch was provided. -/
def EventUpdate.isEmptyPatch (u : EventUpdate) : Bool :=
  u.title.isNone && u.description.isNone && u.date.isNone && u.category.isNone

/-- The confirmation payload returned by `EventService.delete_event`. -/
structure DeleteEventResult where
  message : String
  event_id : String
  rsvps_deleted : Nat
deriving DecidableEq, Repr

/-- `EventService.create_event` (event_service.py lines 22-50): insert the
event document; the store assigns a fresh `_id`; re-read the inserted
document by `_id` and return it, or fail with 500 if the read-back finds
nothing. -/
def EventService.create_event (db : DB) (event : EventCreate) :
    Except HTTPException (Event × DB) :=
  let newId := genOid db.nextId
  let doc : Event :=
    { _id := newId, title := event.title, description := event.description,
      date := event.date, category := event.category }
  let db1 : DB := { db with events := db.events ++ [doc], nextId := db.nextId + 1 }
  match db1.events.find? (fun e => e._id == newId) with
  | none => .error ⟨500, "Failed to create event"⟩
  | some created => .ok (created, db1)

/-- `EventService.get_all_events` (event_service.py lines 52-84): build the
query from the truthy filters — case-insensitive exact `$regex` on
`category`, case-insensitive substring `$regex` on `title` — and return the
matching events capped at 100. -/
def EventService.get_all_events (db : DB) (category title : Option String) :
    List Event :=
  let query : Event → Bool := fun e =>
    (!pyTruthy category || mongoRegexExactCI (category.getD "") e.category) &&
    (!pyTruthy title || mongoRegexContainsCI (title.getD "") e.title)
  (db.events.filter query).take 100

/-- `EventService.get_event_by_id` (event_service.py lines 86-118): reject
a malformed id with 400, look the event up by canonical `_id`, 404 when
absent. -/
def EventService.get_event_by_id (db : DB) (event_id : String) :
    Except HTTPException Event :=
  if !ObjectId.is_valid event_id then
    .error ⟨400, "Invalid event ID format"⟩
  else
    match db.events.find? (fun e => e._id == ObjectId.make event_id) with
    | none => .error ⟨404, "Event with ID " ++ event_id ++ " not found"⟩
    | some e => .ok e

/-- `EventService.update_event` (event_service.py lines 120-170): reject a
malformed id with 400; reject an empty patch with 400 "No fields to
update"; `$set` the provided fields on the first event matching the id,
404 when nothing matched; re-read and return the updated document (the
source returns the raw `find_one` result, hence the `Option`). -/
def EventService.update_event (db : DB) (event_id : String)
    (event_update : EventUpdate) : Except HTTPException (Option Event × DB) :=
  if !ObjectId.is_valid event_id then
    .error ⟨400, "Invalid event ID format"⟩
  else if event_update.isEmptyPatch then
    .error ⟨400, "No fields to update"⟩
  else
    let p : Event → Bool := fun e => e._id == ObjectId.make event_id
    if db.events.any p then
      let db1 : DB := { db with events := updateFirst p (applySet event_update) db.events }
      .ok (db1.events.find? p, db1)
    else
      .error ⟨404, "Event with ID " ++ event_id ++ " not found"⟩

/-- `EventService.delete_event` (event_service.py lines 172-215): reject a
malformed id with 400; `delete_one` the event by canonical `_id`, 404 when
nothing was deleted; then cascade `delete_many` on `rsvps` filtered by the
*raw* `event_id` string, and return the confirmation payload carrying the
cascade count. -/
def EventService.delete_event (db : DB) (event_id : String) :
    Except HTTPException (DeleteEventResult × DB) :=
  if !ObjectId.is_valid event_id then
    .error ⟨400, "Invalid event ID format"⟩
  else
    let p : Event → Bool := fun e => e._id == ObjectId.make event_id
    if db.events.any p then
      let db1 : DB := { db with events := db.events.eraseP p }
      let q : RSVP → Bool := fun r => r.event_id == event_id
      let deleted := db1.rsvps.countP q
      let db2 : DB := { db1 with rsvps := db1.rsvps.filter (fun r => !q r) }
      .ok ({ message := "Event deleted successfully", event_id := event_id,
             rsvps_deleted := deleted }, db2)
    else
      .error ⟨404, "Event with ID " ++ event_id ++ " not found"⟩

/-- `RSVPService.create_rsvp` (rsvp_service.py lines 23-87): reject a
malformed event id with 400; 404 when the referenced event does not exist;
400 "You have already RSVP'd to this event" when an RSVP with the same
(email, event_id) — plain equality query — already exists; otherwise stamp
`created_at` with the current time, insert, re-read by `_id` and return
the raw `find_one` result (hence the `Option`). -/
def RSVPService.create_rsvp (db : DB) (rsvp : RSVPCreate) (now : Int) :
    Except HTTPException (Option RSVP × DB) :=
  if !ObjectId.is_valid rsvp.event_id then
    .error ⟨400, "Invalid event ID format"⟩
  else
    match db.events.find? (fun e => e._id == ObjectId.make rsvp.event_id) with
    | none => .error ⟨404, "Event with ID " ++ rsvp.event_id ++ " not found"⟩
    | some _event =>
      match db.rsvps.find? (fun r => r.email == rsvp.email && r.event_id == rsvp.event_id) with
      | some _existing => .error ⟨400, "You have already RSVP'd to this event"⟩
      | none =>
        let newId := genOid db.nextId
        let doc : RSVP :=
          { _id := newId, user_name := rsvp.user_name, email := rsvp.email,
            event_id := rsvp.event_id, created_at := now }
        let db1 : DB := { db with rsvps := db.rsvps ++ [doc], nextId := db.nextId + 1 }
        .ok (db1.rsvps.find? (fun r => r._id == newId), db1)

/-- `RSVPService.get_all_rsvps` (rsvp_service.py lines 89-121): build the
query from the truthy filters — case-insensitive exact `$regex` on both
`user_name` and `email` — and return the matching RSVPs capped at 500. -/
def RSVPService.get_all_rsvps (db : DB) (user_name email : Option String) :
    List RSVP :=
  let query : RSVP → Bool := fun r =>
    (!pyTruthy user_name || mongoRegexExactCI (user_name.getD "") r.user_name) &&
    (!pyTruthy email || mongoRegexExactCI (email.getD "") r.email)
  (db.rsvps.filter query).take 500

/-- `RSVPService.get_rsvps_for_event` (rsvp_service.py lines 123-161):
reject a malformed id with 400; 404 when the event does not exist;
otherwise return the RSVPs whose raw `event_id` string matches, capped at
500. -/
def RSVPService.get_rsvps_for_event (db : DB) (event_id : String) :
    Except HTTPException (List RSVP) :=
  if !ObjectId.is_valid event_id then
    .error ⟨400, "Invalid event ID format"⟩
  else
    match db.events.find? (fun e => e._id == ObjectId.make event_id) with
    | none => .error ⟨404, "Event with ID " ++ event_id ++ " not found"⟩
    | some _event =>
      .ok ((db.rsvps.filter (fun r => r.event_id == event_id)).take 500)

/-- `RSVPService.delete_rsvp` (rsvp_service.py lines 163-199): reject a
malformed id with 400; `delete_one` by canonical `_id`, 404 when nothing
was deleted; confirmation payload on success. -/
def RSVPService.delete_rsvp (db : DB) (rsvp_id : String) :
    Except HTTPException (String × DB) :=
  if !ObjectId.is_valid rsvp_id then
    .error ⟨400, "Invalid RSVP ID format"⟩
  else
    let p : RSVP → Bool := fun r => r._id == ObjectId.make rsvp_id
    if db.rsvps.any p then
      .ok ("RSVP deleted successfully", { db with rsvps := db.rsvps.eraseP p })
    else
      .error ⟨404, "RSVP with ID " ++ rsvp_id ++ " not found"⟩

/-- §7 error taxonomy, as the transport layer distinguishes the raised
exceptions: 404 is NotFound, 500 is InternalError, the duplicate-RSVP 400
is Conflict, every other 400 is InvalidArgument. -/
inductive ErrClass where
  | InvalidArgument
  | NotFound
  | Conflict
  | InternalError
deriving DecidableEq, Repr

/-- Classify a raised `HTTPException` into the §7 taxonomy. -/
def HTTPException.errClass (e : HTTPException) : ErrClass :=
  if e.status_code == 404 then .NotFound
  else if e.status_code == 500 then .InternalError
  else if e.detail == "You have already RSVP'd to this event" then .Conflict
  else .InvalidArgument

/-! ### Helper lemmas about generated ObjectIds -/

/-- A hex digit character is a hexadecimal character. -/
theorem isHexChar_hexChar (m : Nat) (hm : m < 16) : isHexChar (hexChar m) = true := by
  revert hm; revert m; decide

/-- A hex digit character is already lower-case. -/
theorem toLower_hexChar (m : Nat) (hm : m < 16) : (hexChar m).toLower = hexChar m := by
  revert hm; revert m; decide

/-- The padded hex rendering has the requested length. -/
theorem genOidAux_length (k n : Nat) : (genOidAux k n).length = k := by
  induction k generalizing n with
  | zero => rfl
  | succ k ih => simp [genOidAux, ih]

/-- Every character of the hex rendering is a hex digit. -/
theorem genOidAux_mem (k n : Nat) (c : Char) (hc : c ∈ genOidAux k n) :
    ∃ m, m < 16 ∧ c = hexChar m := by
  induction k generalizing n with
  | zero => simp [genOidAux] at hc
  | succ k ih =>
    simp only [genOidAux, List.mem_append, List.mem_singleton] at hc
    rcases hc with h | h
    · exact ih _ h
    · exact ⟨n % 16, Nat.mod_lt _ (by omega), h⟩

/-- Generated ObjectIds are well-formed. -/
theorem genOid_is_valid (n : Nat) : ObjectId.is_valid (genOid n) = true := by
  unfold ObjectId.is_valid genOid
  have h1 : (String.mk (genOidAux 24 n)).length = 24 := genOidAux_length 24 n
  have h2 : (genOidAux 24 n).all isHexChar = true := by
    rw [List.all_eq_true]
    intro c hc
    obtain ⟨m, hm, rfl⟩ := genOidAux_mem 24 n c hc
    exact isHexChar_hexChar m hm
  simp [h1, h2]

/-- Generated ObjectIds are already in canonical (lower-case) form. -/
theorem genOid_lower (n : Nat) : lowerStr (genOid n) = genOid n := by
  have h : ∀ k m, (genOidAux k m).map Char.toLower = genOidAux k m := by
    intro k
    induction k with
    | zero => intro m; rfl
    | succ k ih =>
      intro m
      simp [genOidAux, ih, toLower_hexChar (m % 16) (Nat.mod_lt _ (by omega))]
  have h := h 24 n
  show String.mk ((genOidAux 24 n).map Char.toLower) = String.mk (genOidAux 24 n)
  rw [h]

/-- Converting a generated ObjectId to an `ObjectId` leaves it unchanged. -/
theorem ObjectId.make_genOid (n : Nat) : ObjectId.make (genOid n) = genOid n :=
  genOid_lower n

/-- A string whose lower-casing is empty is empty. -/
theorem lowerStr_eq_empty (s : String) (h : lowerStr s = "") : s = "" := by
  unfold lowerStr at h
  have hd : s.data.map Char.toLower = ([] : List Char) := congrArg String.data h
  rcases s with ⟨l⟩
  simp at hd
  simp [hd]

/-! ### Helper lemmas about the list operations modelling the store -/

/-- First-match decomposition: a list with exactly one element satisfying
`p`, that element being `e`, splits as `pre ++ e :: post` with no match in
`pre` and none in `post`. -/
theorem firstMatch_decomp (p : α → Bool) (l : List α) (e : α)
    (he : e ∈ l) (hp : p e = true) (hc : l.countP p = 1) :
    ∃ pre post, l = pre ++ e :: post ∧ (∀ x ∈ pre, p x = false) ∧
      post.countP p = 0 := by
  induction l with
  | nil => simp at he
  | cons x xs ih =>
    by_cases hx : p x = true
    · have hxs : xs.countP p = 0 := by
        rw [List.countP_cons, hx, if_pos rfl] at hc; omega
      have hex : e = x := by
        rcases List.mem_cons.mp he with h | h
        · exact h
        · exfalso
          have : 0 < xs.countP p := List.countP_pos_iff.mpr ⟨e, h, hp⟩
          omega
      exact ⟨[], xs, by simp [hex], by simp, hxs⟩
    · have hxf : p x = false := by revert hx; cases p x <;> simp
      have hex : e ≠ x := fun h => by rw [h, hxf] at hp; cases hp
      have he' : e ∈ xs := by
        rcases List.mem_cons.mp he with h | h
        · exact absurd h hex
        · exact h
      have hc' : xs.countP p = 1 := by
        simp [List.countP_cons, hxf] at hc; simpa using hc
      obtain ⟨pre, post, hl, hpre, hpost⟩ := ih he' hc'
      exact ⟨x :: pre, post, by simp [hl], by
        intro y hy
        rcases List.mem_cons.mp hy with h | h
        · rw [h]; exact hxf
        · exact hpre y h, hpost⟩

/-- `eraseP` on a first-match decomposition removes exactly the match. -/
theorem eraseP_decomp (p : α → Bool) (pre post : List α) (e : α)
    (hpre : ∀ x ∈ pre, p x = false) (hp : p e = true) :
    (pre ++ e :: post).eraseP p = pre ++ post := by
  induction pre with
  | nil => simp [List.eraseP_cons, hp]
  | cons x xs ih =>
    have hx : p x = false := hpre x (List.mem_cons_self x xs)
    simp only [List.cons_append, List.eraseP_cons, hx]
    simp [ih fun y hy => hpre y (List.mem_cons_of_mem x hy)]

/-- `updateFirst` on a first-match decomposition patches exactly the match. -/
theorem updateFirst_decomp (p : α → Bool) (f : α → α) (pre post : List α) (e : α)
    (hpre : ∀ x ∈ pre, p x = false) (hp : p e = true) :
    updateFirst p f (pre ++ e :: post) = pre ++ f e :: post := by
  induction pre with
  | nil => simp [updateFirst, hp]
  | cons x xs ih =>
    have hx : p x = false := hpre x (List.mem_cons_self x xs)
    simp only [List.cons_append, updateFirst, hx]
    simp [ih fun y hy => hpre y (List.mem_cons_of_mem x hy)]

/-- `find?` on a first-match decomposition returns the match. -/
theorem find?_decomp (p : α → Bool) (pre post : List α) (e : α)
    (hpre : ∀ x ∈ pre, p x = false) (hp : p e = true) :
    (pre ++ e :: post).find? p = some e := by
  induction pre with
  | nil => simp [List.find?_cons, hp]
  | cons x xs ih =>
    have hx : p x = false := hpre x (List.mem_cons_self x xs)
    simp only [List.cons_append, List.find?_cons, hx]
    exact ih fun y hy => hpre y (List.mem_cons_of_mem x hy)
/-! ### Claim theorems -/

/-- C3: for every input whose event_id is a syntactically well-formed
identifier matching no event in the store, `create_rsvp` fails with
NotFound (404, "Event … not found") and — the call returning an error and
no new store state — no record is inserted. -/
theorem create_rsvp_nonexistent_event_not_found (db : DB) (inp : RSVPCreate)
    (now : Int) (hv : ObjectId.is_valid inp.event_id = true)
    (hne : ∀ e ∈ db.events, e._id ≠ ObjectId.make inp.event_id) :
    RSVPService.create_rsvp db inp now =
      .error ⟨404, "Event with ID " ++ inp.event_id ++ " not found"⟩ ∧
    (HTTPException.mk 404 ("Event with ID " ++ inp.event_id ++ " not found")).errClass =
      ErrClass.NotFound := by
  have hfind : db.events.find? (fun e => e._id == ObjectId.make inp.event_id) = none := by
    rw [List.find?_eq_none]
    intro e he
    simpa using hne e he
  refine ⟨?_, by simp [HTTPException.errClass]⟩
  unfold RSVPService.create_rsvp
  simp [hv, hfind]

/-- Witness for C3 at a concrete store and input. -/
theorem create_rsvp_nonexistent_event_not_found_witness :
    RSVPService.create_rsvp
      { events := [⟨"aaaaaaaaaaaaaaaaaaaaaaaa", "Wkshop", "Learn", 1, "Tech"⟩],
        rsvps := [], nextId := 1 }
      { user_name := "A", email := "a@x.com", event_id := "0123456789abcdef01234567" } 0 =
      .error ⟨404, "Event with ID " ++ "0123456789abcdef01234567" ++ " not found"⟩ :=
  (create_rsvp_nonexistent_event_not_found _ _ 0 (by decide) (by decide)).1

/-- C2: when an RSVP with the same (email, event_id) pair already exists —
in any state where that pair's event is still present — `create_rsvp` with
that pair fails with the duplicate-RSVP error, classified Conflict, and no
new store state (hence no record) is produced.  Under sequential
execution this keeps at most one RSVP per (email, event_id) pair. -/
theorem create_rsvp_duplicate_conflict (db : DB) (inp : RSVPCreate) (now : Int)
    (r : RSVP) (hr : r ∈ db.rsvps) (hemail : r.email = inp.email)
    (hev : r.event_id = inp.event_id)
    (hv : ObjectId.is_valid inp.event_id = true)
    (hex : ∃ e ∈ db.events, e._id = ObjectId.make inp.event_id) :
    RSVPService.create_rsvp db inp now =
      .error ⟨400, "You have already RSVP'd to this event"⟩ ∧
    (HTTPException.mk 400 "You have already RSVP'd to this event").errClass =
      ErrClass.Conflict := by
  obtain ⟨e0, he0, hid0⟩ := hex
  have hfind : (db.events.find? (fun e => e._id == ObjectId.make inp.event_id)).isSome := by
    rw [List.find?_isSome]
    exact ⟨e0, he0, by simp [hid0]⟩
  obtain ⟨efound, hefound⟩ := Option.isSome_iff_exists.mp hfind
  have hdup : (db.rsvps.find? (fun x => x.email == inp.email && x.event_id == inp.event_id)).isSome := by
    rw [List.find?_isSome]
    exact ⟨r, hr, by simp [hemail, hev]⟩
  obtain ⟨rfound, hrfound⟩ := Option.isSome_iff_exists.mp hdup
  refine ⟨?_, by simp [HTTPException.errClass]⟩
  unfold RSVPService.create_rsvp
  simp [hv, hefound, hrfound]

/-- Witness for C2 at a concrete store and input. -/
theorem create_rsvp_duplicate_conflict_witness :
    RSVPService.create_rsvp
      { events := [⟨"aaaaaaaaaaaaaaaaaaaaaaaa", "Wkshop", "Learn", 1, "Tech"⟩],
        rsvps := [⟨"bbbbbbbbbbbbbbbbbbbbbbbb", "A", "a@x.com", "aaaaaaaaaaaaaaaaaaaaaaaa", 0⟩],
        nextId := 2 }
      { user_name := "A", email := "a@x.com", event_id := "aaaaaaaaaaaaaaaaaaaaaaaa" } 5 =
      .error ⟨400, "You have already RSVP'd to this event"⟩ :=
  (create_rsvp_duplicate_conflict _ _ 5
    ⟨"bbbbbbbbbbbbbbbbbbbbbbbb", "A", "a@x.com", "aaaaaaaaaaaaaaaaaaaaaaaa", 0⟩
    (by decide) rfl rfl (by decide)
    ⟨⟨"aaaaaaaaaaaaaaaaaaaaaaaa", "Wkshop", "Learn", 1, "Tech"⟩, by decide, by decide⟩).1

/-- C4: `update_event` with a patch in which zero fields are set always
fails with an InvalidArgument-class error, for every id and store state —
whether or not an event with that id exists — and produces no new store
state; when the id is well-formed the detail is "No fields to update". -/
theorem update_event_empty_patch_invalid (db : DB) (event_id : String) :
    ∃ ex : HTTPException,
      EventService.update_event db event_id
        { title := none, description := none, date := none, category := none } =
        .error ex ∧
      ex.errClass = ErrClass.InvalidArgument ∧
      (ObjectId.is_valid event_id = true → ex.detail = "No fields to update") := by
  unfold EventService.update_event
  cases hv : ObjectId.is_valid event_id with
  | false =>
    exact ⟨⟨400, "Invalid event ID format"⟩, by simp, by simp [HTTPException.errClass],
      fun h => by simp at h⟩
  | true =>
    refine ⟨⟨400, "No fields to update"⟩, ?_, by simp [HTTPException.errClass], fun _ => rfl⟩
    simp [EventUpdate.isEmptyPatch]

/-- C8: `get_rsvps_for_event` is an existence-gated query: for a
well-formed event_id matching no event it fails with NotFound — whatever
RSVPs with that event_id the store holds — and for an existing event it
returns all RSVPs whose `event_id` matches, capped at 500. -/
theorem get_rsvps_for_event_existence_gated (db : DB) (event_id : String)
    (hv : ObjectId.is_valid event_id = true) :
    ((∀ e ∈ db.events, e._id ≠ ObjectId.make event_id) →
       RSVPService.get_rsvps_for_event db event_id =
         .error ⟨404, "Event with ID " ++ event_id ++ " not found"⟩) ∧
    ((∃ e ∈ db.events, e._id = ObjectId.make event_id) →
       RSVPService.get_rsvps_for_event db event_id =
         .ok ((db.rsvps.filter (fun r => r.event_id == event_id)).take 500)) := by
  constructor
  · intro hne
    have hfind : db.events.find? (fun e => e._id == ObjectId.make event_id) = none := by
      rw [List.find?_eq_none]
      intro e he
      simpa using hne e he
    unfold RSVPService.get_rsvps_for_event
    simp [hv, hfind]
  · intro hex
    obtain ⟨e0, he0, hid0⟩ := hex
    have hfind : (db.events.find? (fun e => e._id == ObjectId.make event_id)).isSome := by
      rw [List.find?_isSome]
      exact ⟨e0, he0, by simp [hid0]⟩
    obtain ⟨efound, hefound⟩ := Option.isSome_iff_exists.mp hfind
    unfold RSVPService.get_rsvps_for_event
    simp [hv, hefound]

/-- Witness for C8 (NotFound half) at a concrete store holding an RSVP
whose event_id names no stored event. -/
theorem get_rsvps_for_event_existence_gated_witness :
    (∀ e ∈ (DB.mk [⟨"aaaaaaaaaaaaaaaaaaaaaaaa", "Wkshop", "Learn", 1, "Tech"⟩]
        [⟨"bbbbbbbbbbbbbbbbbbbbbbbb", "A", "a@x.com", "cccccccccccccccccccccccc", 0⟩] 2).events,
        e._id ≠ ObjectId.make "cccccccccccccccccccccccc") ∧
    RSVPService.get_rsvps_for_event
      (DB.mk [⟨"aaaaaaaaaaaaaaaaaaaaaaaa", "Wkshop", "Learn", 1, "Tech"⟩]
        [⟨"bbbbbbbbbbbbbbbbbbbbbbbb", "A", "a@x.com", "cccccccccccccccccccccccc", 0⟩] 2)
      "cccccccccccccccccccccccc" =
      .error ⟨404, "Event with ID " ++ "cccccccccccccccccccccccc" ++ " not found"⟩ :=
  ⟨by decide,
   (get_rsvps_for_event_existence_gated _ "cccccccccccccccccccccccc" (by decide)).1 (by decide)⟩

/-- C9: an empty-string filter argument is treated exactly like an absent
filter: `get_all_events` with category = "" (likewise title = "") filters
nothing on that argument — with both filters empty it returns all events
up to the cap — and the same holds for `get_all_rsvps` with
user_name = "" or email = "". -/
theorem empty_string_filter_is_absent (db : DB) :
    (∀ t, EventService.get_all_events db (some "") t =
        EventService.get_all_events db none t) ∧
    (∀ c, EventService.get_all_events db c (some "") =
        EventService.get_all_events db c none) ∧
    EventService.get_all_events db (some "") (some "") = db.events.take 100 ∧
    (∀ em, RSVPService.get_all_rsvps db (some "") em =
        RSVPService.get_all_rsvps db none em) ∧
    (∀ un, RSVPService.get_all_rsvps db un (some "") =
        RSVPService.get_all_rsvps db un none) ∧
    RSVPService.get_all_rsvps db (some "") (some "") = db.rsvps.take 500 := by
  refine ⟨fun t => rfl, fun c => rfl, ?_, fun em => rfl, fun un => rfl, ?_⟩
  · show (db.events.filter _).take 100 = db.events.take 100
    have h : (fun e : Event =>
        (!pyTruthy (some "") || mongoRegexExactCI ((some "").getD "") e.category) &&
        (!pyTruthy (some "") || mongoRegexContainsCI ((some "").getD "") e.title)) =
        fun _ : Event => true := by
      funext e; rfl
    rw [h, List.filter_true]
  · show (db.rsvps.filter _).take 500 = db.rsvps.take 500
    have h : (fun r : RSVP =>
        (!pyTruthy (some "") || mongoRegexExactCI ((some "").getD "") r.user_name) &&
        (!pyTruthy (some "") || mongoRegexExactCI ((some "").getD "") r.email)) =
        fun _ : RSVP => true := by
      funext r; rfl
    rw [h, List.filter_true]

/-- Spec-side filter predicate for `get_all_events`, written from the
claim's words: an event passes when its category equals the category
argument case-insensitively (exact match) and its title contains the title
argument as a substring case-insensitively; an absent argument imposes no
condition; both conditions combine with AND. -/
def eventMatchesFiltersSpec (category title : Option String) (e : Event) : Bool :=
  (match category with
   | none => true
   | some c => lowerStr e.category == lowerStr c) &&
  (match title with
   | none => true
   | some t => listContainsSub (lowerStr t).data (lowerStr e.title).data)

/-- C7: `get_all_events` returns exactly the stored events passing the
claim's filter conditions — case-insensitive exact match on category,
case-insensitive substring match on title, AND when both are given — in
store order, capped at 100 records. -/
theorem get_all_events_filter_correct (db : DB) (category title : Option String)
    (hc : category ≠ some "") (ht : title ≠ some "") :
    EventService.get_all_events db category title =
      (db.events.filter (eventMatchesFiltersSpec category title)).take 100 ∧
    (EventService.get_all_events db category title).length ≤ 100 := by
  have hq : ∀ e ∈ db.events,
      ((!pyTruthy category || mongoRegexExactCI (category.getD "") e.category) &&
       (!pyTruthy title || mongoRegexContainsCI (title.getD "") e.title)) =
      eventMatchesFiltersSpec category title e := by
    intro e _
    unfold eventMatchesFiltersSpec
    congr 1
    · cases category with
      | none => rfl
      | some c =>
        have hc' : c ≠ "" := fun h => hc (by rw [h])
        have hb : (c != "") = true := bne_iff_ne.mpr hc'
        simp [pyTruthy, mongoRegexExactCI, hb]
    · cases title with
      | none => rfl
      | some t =>
        have ht' : t ≠ "" := fun h => ht (by rw [h])
        have hb : (t != "") = true := bne_iff_ne.mpr ht'
        simp [pyTruthy, mongoRegexContainsCI, hb]
  constructor
  · show (db.events.filter _).take 100 = _
    rw [List.filter_congr hq]
  · exact List.length_take_le _ _

/-- Witness for C7: among a Tech and a Music event, filtering with
category "tech" (different case) and title "work" (substring, different
case) returns exactly the Tech workshop. -/
theorem get_all_events_filter_correct_witness :
    EventService.get_all_events
      (DB.mk [⟨"aaaaaaaaaaaaaaaaaaaaaaaa", "Python Workshop", "d1", 1, "Tech"⟩,
              ⟨"bbbbbbbbbbbbbbbbbbbbbbbb", "Concert", "d2", 2, "Music"⟩] [] 2)
      (some "tech") (some "work") =
      [⟨"aaaaaaaaaaaaaaaaaaaaaaaa", "Python Workshop", "d1", 1, "Tech"⟩] :=
  ((get_all_events_filter_correct
      (DB.mk [⟨"aaaaaaaaaaaaaaaaaaaaaaaa", "Python Workshop", "d1", 1, "Tech"⟩,
              ⟨"bbbbbbbbbbbbbbbbbbbbbbbb", "Concert", "d2", 2, "Music"⟩] [] 2)
      (some "tech") (some "work") (by decide) (by decide)).1).trans (by decide)

/-- C6: for every valid event input, `create_event` succeeds (its
store-assigned id being fresh) and `get_event_by_id` on the assigned id
returns a record equal to the input in all four input fields. -/
theorem create_event_get_roundtrip (db : DB) (x : EventCreate)
    (hfresh : ∀ e ∈ db.events, e._id ≠ genOid db.nextId) :
    ∃ (ev : Event) (db' : DB),
      EventService.create_event db x = .ok (ev, db') ∧
      ev.title = x.title ∧ ev.description = x.description ∧
      ev.date = x.date ∧ ev.category = x.category ∧
      EventService.get_event_by_id db' ev._id = .ok ev := by
  set doc : Event :=
    { _id := genOid db.nextId, title := x.title, description := x.description,
      date := x.date, category := x.category } with hdoc
  have hnone : db.events.find? (fun e => e._id == genOid db.nextId) = none := by
    rw [List.find?_eq_none]
    intro e he
    simpa using hfresh e he
  have hfind : (db.events ++ [doc]).find? (fun e => e._id == genOid db.nextId) =
      some doc := by
    rw [List.find?_append, hnone]
    simp [hdoc]
  refine ⟨doc, { db with events := db.events ++ [doc], nextId := db.nextId + 1 },
    ?_, rfl, rfl, rfl, rfl, ?_⟩
  · unfold EventService.create_event
    simp only [hfind]
  · unfold EventService.get_event_by_id
    have hid : doc._id = genOid db.nextId := rfl
    rw [hid, genOid_is_valid, ObjectId.make_genOid]
    simp only [Bool.not_true, Bool.false_eq_true, if_false]
    rw [hfind]

/-- Witness for C6 at a concrete store and input. -/
theorem create_event_get_roundtrip_witness :
    ∃ (ev : Event) (db' : DB),
      EventService.create_event (DB.mk [] [] 0) ⟨"Wkshop", "Learn", 1, "Tech"⟩ =
        .ok (ev, db') ∧
      ev.title = "Wkshop" ∧ ev.description = "Learn" ∧
      ev.date = 1 ∧ ev.category = "Tech" ∧
      EventService.get_event_by_id db' ev._id = .ok ev :=
  create_event_get_roundtrip (DB.mk [] [] 0) ⟨"Wkshop", "Learn", 1, "Tech"⟩ (by decide)

/-- C5: updating only the title of an existing event (the well-formed,
canonical, unique id naming it) changes only the stored title: id,
description, date and category are unchanged, every other event is
untouched, and the rsvps collection is untouched. -/
theorem update_event_title_only_preserves (db : DB) (e : Event) (t : String)
    (he : e ∈ db.events) (hv : ObjectId.is_valid e._id = true)
    (hcanon : lowerStr e._id = e._id)
    (hu : db.events.countP (fun x => x._id == e._id) = 1) :
    ∃ (e' : Event) (db' : DB) (pre post : List Event),
      EventService.update_event db e._id
        { title := some t, description := none, date := none, category := none } =
        .ok (some e', db') ∧
      e'.title = t ∧ e'._id = e._id ∧ e'.description = e.description ∧
      e'.date = e.date ∧ e'.category = e.category ∧
      db.events = pre ++ e :: post ∧ db'.events = pre ++ e' :: post ∧
      db'.rsvps = db.rsvps := by
  have hmake : ObjectId.make e._id = e._id := hcanon
  have hp : (fun x : Event => x._id == e._id) e = true := by simp
  obtain ⟨pre, post, hsplit, hpre, _⟩ :=
    firstMatch_decomp (fun x : Event => x._id == e._id) db.events e he hp hu
  set u : EventUpdate :=
    { title := some t, description := none, date := none, category := none } with hu'
  have hany : db.events.any (fun x => x._id == e._id) = true := by
    rw [List.any_eq_true]
    exact ⟨e, he, hp⟩
  have hupd : updateFirst (fun x : Event => x._id == e._id) (applySet u) db.events =
      pre ++ applySet u e :: post := by
    rw [hsplit]
    exact updateFirst_decomp _ _ pre post e hpre hp
  have hfind : (pre ++ applySet u e :: post).find? (fun x : Event => x._id == e._id) =
      some (applySet u e) := by
    apply find?_decomp _ pre post _ hpre
    show ((applySet u e)._id == e._id) = true
    simp [applySet]
  refine ⟨applySet u e, { db with events := pre ++ applySet u e :: post },
    pre, post, ?_, rfl, rfl, rfl, rfl, rfl, hsplit, rfl, rfl⟩
  unfold EventService.update_event
  rw [hv]
  simp only [Bool.not_true, Bool.false_eq_true, if_false, hmake]
  rw [show u.isEmptyPatch = false from rfl]
  simp only [Bool.false_eq_true, if_false, hany, if_true, hupd, hfind]

/-- Witness for C5 at a concrete two-event store. -/
theorem update_event_title_only_preserves_witness :
    ∃ (e' : Event) (db' : DB) (pre post : List Event),
      EventService.update_event
        (DB.mk [⟨"aaaaaaaaaaaaaaaaaaaaaaaa", "Wkshop", "Learn", 1, "Tech"⟩,
                ⟨"bbbbbbbbbbbbbbbbbbbbbbbb", "Concert", "Listen", 2, "Music"⟩] [] 2)
        (Event._id ⟨"aaaaaaaaaaaaaaaaaaaaaaaa", "Wkshop", "Learn", 1, "Tech"⟩)
        { title := some "Renamed", description := none, date := none, category := none } =
        .ok (some e', db') ∧
      e'.title = "Renamed" ∧
      e'._id = Event._id ⟨"aaaaaaaaaaaaaaaaaaaaaaaa", "Wkshop", "Learn", 1, "Tech"⟩ ∧
      e'.description = "Learn" ∧ e'.date = 1 ∧ e'.category = "Tech" ∧
      (DB.mk [⟨"aaaaaaaaaaaaaaaaaaaaaaaa", "Wkshop", "Learn", 1, "Tech"⟩,
              ⟨"bbbbbbbbbbbbbbbbbbbbbbbb", "Concert", "Listen", 2, "Music"⟩] [] 2).events =
        pre ++ ⟨"aaaaaaaaaaaaaaaaaaaaaaaa", "Wkshop", "Learn", 1, "Tech"⟩ :: post ∧
      db'.events = pre ++ e' :: post ∧
      db'.rsvps = (DB.mk [⟨"aaaaaaaaaaaaaaaaaaaaaaaa", "Wkshop", "Learn", 1, "Tech"⟩,
              ⟨"bbbbbbbbbbbbbbbbbbbbbbbb", "Concert", "Listen", 2, "Music"⟩] [] 2).rsvps :=
  update_event_title_only_preserves
    (DB.mk [⟨"aaaaaaaaaaaaaaaaaaaaaaaa", "Wkshop", "Learn", 1, "Tech"⟩,
            ⟨"bbbbbbbbbbbbbbbbbbbbbbbb", "Concert", "Listen", 2, "Music"⟩] [] 2)
    ⟨"aaaaaaaaaaaaaaaaaaaaaaaa", "Wkshop", "Learn", 1, "Tech"⟩ "Renamed"
    (by decide) (by decide) (by decide) (by decide)

/-- C1: deleting an existing event (the well-formed, canonical, unique id
naming it) with exactly N RSVPs whose `event_id` equals its id removes the
event, removes exactly those RSVPs, returns a confirmation whose cascaded
count is exactly N, and a direct query of the rsvps collection for that
event_id afterwards returns zero records. -/
theorem delete_event_cascades (db : DB) (e : Event) (N : Nat)
    (he : e ∈ db.events) (hv : ObjectId.is_valid e._id = true)
    (hcanon : lowerStr e._id = e._id)
    (hu : db.events.countP (fun x => x._id == e._id) = 1)
    (hN : db.rsvps.countP (fun r => r.event_id == e._id) = N) :
    ∃ (db' : DB) (pre post : List Event),
      EventService.delete_event db e._id =
        .ok ({ message := "Event deleted successfully", event_id := e._id,
               rsvps_deleted := N }, db') ∧
      db.events = pre ++ e :: post ∧ db'.events = pre ++ post ∧
      e ∉ db'.events ∧
      db'.rsvps = db.rsvps.filter (fun r => !(r.event_id == e._id)) ∧
      db'.rsvps.filter (fun r => r.event_id == e._id) = [] := by
  have hmake : ObjectId.make e._id = e._id := hcanon
  have hp : (fun x : Event => x._id == e._id) e = true := by simp
  obtain ⟨pre, post, hsplit, hpre, hpost⟩ :=
    firstMatch_decomp (fun x : Event => x._id == e._id) db.events e he hp hu
  have hany : db.events.any (fun x => x._id == e._id) = true := by
    rw [List.any_eq_true]
    exact ⟨e, he, hp⟩
  have herase : db.events.eraseP (fun x => x._id == e._id) = pre ++ post := by
    rw [hsplit]
    exact eraseP_decomp _ pre post e hpre hp
  have hnotmem : e ∉ pre ++ post := by
    intro hmem
    rcases List.mem_append.mp hmem with h | h
    · have := hpre e h
      simp at this
    · have := List.countP_eq_zero.mp hpost e h
      simp at this
  have hempty : (db.rsvps.filter (fun r => !(r.event_id == e._id))).filter
      (fun r => r.event_id == e._id) = [] := by
    rw [List.filter_eq_nil_iff]
    intro r hr hq
    have := (List.mem_filter.mp hr).2
    rw [hq] at this
    simp at this
  refine ⟨⟨pre ++ post, db.rsvps.filter (fun r => !(r.event_id == e._id)), db.nextId⟩,
    pre, post, ?_, hsplit, rfl, hnotmem, rfl, hempty⟩
  unfold EventService.delete_event
  rw [hv]
  simp only [Bool.not_true, Bool.false_eq_true, if_false, hmake, hany, if_true,
    herase, hN]

/-- Witness for C1: deleting an event with two RSVPs (a third RSVP belongs
to another event) reports a cascaded count of 2 and leaves no RSVP with
the deleted event's id. -/
theorem delete_event_cascades_witness :
    ∃ (db' : DB) (pre post : List Event),
      EventService.delete_event
        (DB.mk [⟨"aaaaaaaaaaaaaaaaaaaaaaaa", "Wkshop", "Learn", 1, "Tech"⟩,
                ⟨"bbbbbbbbbbbbbbbbbbbbbbbb", "Concert", "Listen", 2, "Music"⟩]
          [⟨"111111111111111111111111", "A", "a@x.com", "aaaaaaaaaaaaaaaaaaaaaaaa", 0⟩,
           ⟨"222222222222222222222222", "B", "b@x.com", "bbbbbbbbbbbbbbbbbbbbbbbb", 0⟩,
           ⟨"333333333333333333333333", "C", "c@x.com", "aaaaaaaaaaaaaaaaaaaaaaaa", 0⟩] 4)
        (Event._id ⟨"aaaaaaaaaaaaaaaaaaaaaaaa", "Wkshop", "Learn", 1, "Tech"⟩) =
        .ok ({ message := "Event deleted successfully",
               event_id := Event._id ⟨"aaaaaaaaaaaaaaaaaaaaaaaa", "Wkshop", "Learn", 1, "Tech"⟩,
               rsvps_deleted := 2 }, db') ∧
      (DB.mk [⟨"aaaaaaaaaaaaaaaaaaaaaaaa", "Wkshop", "Learn", 1, "Tech"⟩,
              ⟨"bbbbbbbbbbbbbbbbbbbbbbbb", "Concert", "Listen", 2, "Music"⟩]
        [⟨"111111111111111111111111", "A", "a@x.com", "aaaaaaaaaaaaaaaaaaaaaaaa", 0⟩,
         ⟨"222222222222222222222222", "B", "b@x.com", "bbbbbbbbbbbbbbbbbbbbbbbb", 0⟩,
         ⟨"333333333333333333333333", "C", "c@x.com", "aaaaaaaaaaaaaaaaaaaaaaaa", 0⟩] 4).events =
        pre ++ ⟨"aaaaaaaaaaaaaaaaaaaaaaaa", "Wkshop", "Learn", 1, "Tech"⟩ :: post ∧
      db'.events = pre ++ post ∧
      ⟨"aaaaaaaaaaaaaaaaaaaaaaaa", "Wkshop", "Learn", 1, "Tech"⟩ ∉ db'.events ∧
      db'.rsvps = (DB.mk [⟨"aaaaaaaaaaaaaaaaaaaaaaaa", "Wkshop", "Learn", 1, "Tech"⟩,
              ⟨"bbbbbbbbbbbbbbbbbbbbbbbb", "Concert", "Listen", 2, "Music"⟩]
        [⟨"111111111111111111111111", "A", "a@x.com", "aaaaaaaaaaaaaaaaaaaaaaaa", 0⟩,
         ⟨"222222222222222222222222", "B", "b@x.com", "bbbbbbbbbbbbbbbbbbbbbbbb", 0⟩,
         ⟨"333333333333333333333333", "C", "c@x.com", "aaaaaaaaaaaaaaaaaaaaaaaa", 0⟩] 4).rsvps.filter
          (fun r => !(r.event_id == Event._id ⟨"aaaaaaaaaaaaaaaaaaaaaaaa", "Wkshop", "Learn", 1, "Tech"⟩)) ∧
      db'.rsvps.filter
          (fun r => r.event_id == Event._id ⟨"aaaaaaaaaaaaaaaaaaaaaaaa", "Wkshop", "Learn", 1, "Tech"⟩) = [] :=
  delete_event_cascades
    (DB.mk [⟨"aaaaaaaaaaaaaaaaaaaaaaaa", "Wkshop", "Learn", 1, "Tech"⟩,
            ⟨"bbbbbbbbbbbbbbbbbbbbbbbb", "Concert", "Listen", 2, "Music"⟩]
      [⟨"111111111111111111111111", "A", "a@x.com", "aaaaaaaaaaaaaaaaaaaaaaaa", 0⟩,
       ⟨"222222222222222222222222", "B", "b@x.com", "bbbbbbbbbbbbbbbbbbbbbbbb", 0⟩,
       ⟨"333333333333333333333333", "C", "c@x.com", "aaaaaaaaaaaaaaaaaaaaaaaa", 0⟩] 4)
    ⟨"aaaaaaaaaaaaaaaaaaaaaaaa", "Wkshop", "Learn", 1, "Tech"⟩ 2
    (by decide) (by decide) (by decide) (by decide) (by decide)

/-- C10: the duplicate check of `create_rsvp` compares email by exact,
case-sensitive string equality: with an RSVP for the same event whose
email differs only in letter case already stored (and no exact-equal
duplicate), `create_rsvp` passes the duplicate check and inserts a second
RSVP — even though the email filter of `get_all_rsvps` matches the two
emails as equal, returning both records. -/
theorem create_rsvp_dup_check_case_sensitive (db : DB) (inp : RSVPCreate)
    (now : Int) (r : RSVP) (hr : r ∈ db.rsvps) (hev : r.event_id = inp.event_id)
    (hne : r.email ≠ inp.email) (hci : lowerStr r.email = lowerStr inp.email)
    (hv : ObjectId.is_valid inp.event_id = true)
    (hex : ∃ e ∈ db.events, e._id = ObjectId.make inp.event_id)
    (hnodup : ∀ x ∈ db.rsvps, ¬(x.email = inp.email ∧ x.event_id = inp.event_id))
    (hfresh : ∀ x ∈ db.rsvps, x._id ≠ genOid db.nextId)
    (hlen : db.rsvps.length < 500) :
    ∃ (newR : RSVP) (db' : DB),
      RSVPService.create_rsvp db inp now = .ok (some newR, db') ∧
      db'.rsvps = db.rsvps ++ [newR] ∧
      newR.email = inp.email ∧ newR.event_id = inp.event_id ∧ newR ≠ r ∧
      r ∈ db'.rsvps ∧
      mongoRegexExactCI inp.email r.email = true ∧
      r ∈ RSVPService.get_all_rsvps db' none (some inp.email) ∧
      newR ∈ RSVPService.get_all_rsvps db' none (some inp.email) := by
  obtain ⟨e0, he0, hid0⟩ := hex
  have hfind : (db.events.find? (fun e => e._id == ObjectId.make inp.event_id)).isSome := by
    rw [List.find?_isSome]
    exact ⟨e0, he0, by simp [hid0]⟩
  obtain ⟨efound, hefound⟩ := Option.isSome_iff_exists.mp hfind
  have hdupnone : db.rsvps.find?
      (fun x => x.email == inp.email && x.event_id == inp.event_id) = none := by
    rw [List.find?_eq_none]
    intro x hx
    simpa using hnodup x hx
  set doc : RSVP :=
    { _id := genOid db.nextId, user_name := inp.user_name, email := inp.email,
      event_id := inp.event_id, created_at := now } with hdoc
  have hnone : db.rsvps.find? (fun x => x._id == genOid db.nextId) = none := by
    rw [List.find?_eq_none]
    intro x hx
    simpa using hfresh x hx
  have hfindnew : (db.rsvps ++ [doc]).find? (fun x => x._id == genOid db.nextId) =
      some doc := by
    rw [List.find?_append, hnone]
    simp [hdoc]
  set db' : DB := { db with rsvps := db.rsvps ++ [doc], nextId := db.nextId + 1 }
    with hdb'
  have hq : ∀ x : RSVP, lowerStr x.email = lowerStr inp.email →
      ((!pyTruthy (none : Option String) ||
          mongoRegexExactCI ((none : Option String).getD "") x.user_name) &&
       (!pyTruthy (some inp.email) ||
          mongoRegexExactCI ((some inp.email).getD "") x.email)) = true := by
    intro x hx
    simp [pyTruthy, mongoRegexExactCI, hx]
  have hlist : RSVPService.get_all_rsvps db' none (some inp.email) =
      db'.rsvps.filter (fun x =>
        (!pyTruthy (none : Option String) ||
            mongoRegexExactCI ((none : Option String).getD "") x.user_name) &&
        (!pyTruthy (some inp.email) ||
            mongoRegexExactCI ((some inp.email).getD "") x.email)) := by
    unfold RSVPService.get_all_rsvps
    apply List.take_of_length_le
    calc (db'.rsvps.filter _).length ≤ db'.rsvps.length := List.length_filter_le _ _
      _ = db.rsvps.length + 1 := by simp [hdb']
      _ ≤ 500 := by omega
  have hrmem : r ∈ db'.rsvps := by
    simp only [hdb']
    exact List.mem_append_left _ hr
  refine ⟨doc, db', ?_, rfl, rfl, rfl, ?_, hrmem, ?_, ?_, ?_⟩
  · unfold RSVPService.create_rsvp
    rw [hv]
    simp only [Bool.not_true, Bool.false_eq_true, if_false, hefound, hdupnone,
      hfindnew]
  · intro hcontra
    have : doc._id = r._id := by rw [hcontra]
    have hdocid : doc._id = genOid db.nextId := rfl
    exact hfresh r hr (by rw [← this, hdocid])
  · show (lowerStr r.email == lowerStr inp.email) = true
    simp [hci]
  · rw [hlist]
    exact List.mem_filter.mpr ⟨hrmem, hq r hci⟩
  · rw [hlist]
    refine List.mem_filter.mpr ⟨by simp [hdb'], hq doc rfl⟩

/-- Witness for C10: an RSVP with email "A@X.com" already exists for the
event; creating an RSVP with "a@x.com" passes the duplicate check and
inserts a second record, and the case-insensitive email filter returns
both. -/
theorem create_rsvp_dup_check_case_sensitive_witness :
    ∃ (newR : RSVP) (db' : DB),
      RSVPService.create_rsvp
        (DB.mk [⟨"aaaaaaaaaaaaaaaaaaaaaaaa", "Wkshop", "Learn", 1, "Tech"⟩]
          [⟨"111111111111111111111111", "A", "A@X.com", "aaaaaaaaaaaaaaaaaaaaaaaa", 0⟩] 2)
        ⟨"A", "a@x.com", "aaaaaaaaaaaaaaaaaaaaaaaa"⟩ 5 = .ok (some newR, db') ∧
      db'.rsvps =
        [⟨"111111111111111111111111", "A", "A@X.com", "aaaaaaaaaaaaaaaaaaaaaaaa", 0⟩] ++ [newR] ∧
      newR.email = "a@x.com" ∧ newR.event_id = "aaaaaaaaaaaaaaaaaaaaaaaa" ∧
      newR ≠ ⟨"111111111111111111111111", "A", "A@X.com", "aaaaaaaaaaaaaaaaaaaaaaaa", 0⟩ ∧
      (⟨"111111111111111111111111", "A", "A@X.com", "aaaaaaaaaaaaaaaaaaaaaaaa", 0⟩ : RSVP) ∈ db'.rsvps ∧
      mongoRegexExactCI "a@x.com" "A@X.com" = true ∧
      (⟨"111111111111111111111111", "A", "A@X.com", "aaaaaaaaaaaaaaaaaaaaaaaa", 0⟩ : RSVP) ∈
        RSVPService.get_all_rsvps db' none (some "a@x.com") ∧
      newR ∈ RSVPService.get_all_rsvps db' none (some "a@x.com") :=
  create_rsvp_dup_check_case_sensitive
    (DB.mk [⟨"aaaaaaaaaaaaaaaaaaaaaaaa", "Wkshop", "Learn", 1, "Tech"⟩]
      [⟨"111111111111111111111111", "A", "A@X.com", "aaaaaaaaaaaaaaaaaaaaaaaa", 0⟩] 2)
    ⟨"A", "a@x.com", "aaaaaaaaaaaaaaaaaaaaaaaa"⟩ 5
    ⟨"111111111111111111111111", "A", "A@X.com", "aaaaaaaaaaaaaaaaaaaaaaaa", 0⟩
    (by decide) rfl (by decide) (by decide) (by decide)
    ⟨⟨"aaaaaaaaaaaaaaaaaaaaaaaa", "Wkshop", "Learn", 1, "Tech"⟩, by decide, by decide⟩
    (by decide) (by decide) (by decide)

/-- Witness for C4 at a concrete store and well-formed id. -/
theorem update_event_empty_patch_invalid_witness :
    ∃ ex : HTTPException,
      EventService.update_event (DB.mk [] [] 0) "aaaaaaaaaaaaaaaaaaaaaaaa"
        { title := none, description := none, date := none, category := none } =
        .error ex ∧
      ex.errClass = ErrClass.InvalidArgument ∧
      (ObjectId.is_valid "aaaaaaaaaaaaaaaaaaaaaaaa" = true →
        ex.detail = "No fields to update") :=
  update_event_empty_patch_invalid (DB.mk [] [] 0) "aaaaaaaaaaaaaaaaaaaaaaaa"
